import Mathlib

/- Verification of the web server in app/main.py: a FastAPI application with a
static-file mount at /static, a home route GET / that reads static/index.html
from disk on every request, and a health route GET /health returning a fixed
JSON object. Files are byte lists, paths are segment lists, and the filesystem
is an explicit snapshot passed to every handler. -/

/-- File contents as a list of byte values. -/
abbrev Bytes := List Nat

/-- A filesystem path, as a list of name segments. -/
abbrev FsPath := List String

/-- Byte encoding of an ASCII string, used for fixed response bodies. -/
def asciiBytes (s : String) : Bytes := s.toList.map Char.toNat

/-- True for a UTF-8 continuation byte (10xxxxxx). -/
def contByte (c : Nat) : Bool := 0x80 ≤ c && c ≤ 0xBF

/-- Allowed second byte after a three-byte leading byte `b`, per strict UTF-8
(no overlong forms, no surrogates). -/
def cont2ok (b c : Nat) : Bool :=
  if b == 0xE0 then 0xA0 ≤ c && c ≤ 0xBF
  else if b == 0xED then 0x80 ≤ c && c ≤ 0x9F
  else contByte c

/-- Allowed second byte after a four-byte leading byte `b`, per strict UTF-8
(no overlong forms, nothing above U+10FFFF). -/
def cont3ok (b c : Nat) : Bool :=
  if b == 0xF0 then 0x90 ≤ c && c ≤ 0xBF
  else if b == 0xF4 then 0x80 ≤ c && c ≤ 0x8F
  else contByte c

/-- Decode one UTF-8 scalar value from the front of a byte list, returning the
code point and the remaining bytes, or `none` on malformed input. This is the
strict decoding Python's `open(..., "r", encoding="utf-8")` applies. -/
def utf8Step : List Nat → Option (Nat × List Nat)
  | [] => none
  | b :: rest =>
    if b ≤ 0x7F then some (b, rest)
    else if 0xC2 ≤ b && b ≤ 0xDF then
      match rest with
      | c :: r2 =>
        if contByte c then some ((b - 0xC0) * 64 + (c - 0x80), r2) else none
      | [] => none
    else if 0xE0 ≤ b && b ≤ 0xEF then
      match rest with
      | c :: d :: r3 =>
        if cont2ok b c && contByte d then
          some ((b - 0xE0) * 4096 + (c - 0x80) * 64 + (d - 0x80), r3)
        else none
      | _ => none
    else if 0xF0 ≤ b && b ≤ 0xF4 then
      match rest with
      | c :: d :: e :: r4 =>
        if cont3ok b c && contByte d && contByte e then
          some ((b - 0xF0) * 262144 + (c - 0x80) * 4096 + (d - 0x80) * 64 + (e - 0x80), r4)
        else none
      | _ => none
    else none

/-- Fuel-driven UTF-8 decoding loop: repeatedly take one scalar with `utf8Step`.
Each step consumes at least one byte, so fuel equal to the length suffices. -/
def utf8DecodeF : Nat → List Nat → Option (List Nat)
  | _, [] => some []
  | 0, _ :: _ => none
  | fuel + 1, b :: rest =>
    match utf8Step (b :: rest) with
    | none => none
    | some (cp, r) => (utf8DecodeF fuel r).map (fun cps => cp :: cps)

/-- Strict UTF-8 decoding of a whole byte list into code points; `none` exactly
when Python's UTF-8 text decoding would raise `UnicodeDecodeError`. -/
def utf8Decode (bs : List Nat) : Option (List Nat) := utf8DecodeF bs.length bs

/-- UTF-8 encoding of one code point. -/
def utf8EncodeChar (c : Nat) : List Nat :=
  if c < 0x80 then [c]
  else if c < 0x800 then [0xC0 + c / 64, 0x80 + c % 64]
  else if c < 0x10000 then [0xE0 + c / 4096, 0x80 + c / 64 % 64, 0x80 + c % 64]
  else [0xF0 + c / 262144, 0x80 + c / 4096 % 64, 0x80 + c / 64 % 64, 0x80 + c % 64]

/-- UTF-8 encoding of a code-point list, the wire form of a response body that
the framework produces from a returned Python `str`. -/
def utf8Encode (cs : List Nat) : List Nat := (cs.map utf8EncodeChar).flatten

/-- A snapshot of the filesystem: regular files with their contents, and the
set of existing directories. -/
structure FS where
  files : List (FsPath × Bytes)
  dirs : List FsPath
deriving DecidableEq

/-- Read a regular file, `none` when no file exists at the path. -/
def FS.read (fs : FS) (p : FsPath) : Option Bytes :=
  (fs.files.find? (fun kv => kv.1 == p)).map (fun kv => kv.2)

/-- Directory-existence test. -/
def FS.isDir (fs : FS) (p : FsPath) : Bool := fs.dirs.contains p

/-- Python's universal-newline translation, applied by a text-mode read with
the default newline handling: every CRLF pair and every lone CR in the decoded
text becomes a single LF. -/
def universalNewlines : List Nat → List Nat
  | [] => []
  | [c] => if c = 13 then [10] else [c]
  | c :: d :: rest =>
    if c = 13 then
      if d = 10 then 10 :: universalNewlines rest
      else 10 :: universalNewlines (d :: rest)
    else c :: universalNewlines (d :: rest)

/-- Python's `open(p, "r", encoding="utf-8")` followed by `read()`: the file's
bytes put through strict UTF-8 decoding and universal-newline translation;
`none` when the file is missing or its bytes are not valid UTF-8 (both raise
in the source; the translation itself cannot fail). -/
def readText (fs : FS) (p : FsPath) : Option (List Nat) :=
  (fs.read p).bind (fun bs => (utf8Decode bs).map universalNewlines)

/-- An HTTP response: status code, body bytes, and content type. -/
structure Response where
  status : Nat
  body : Bytes
  contentType : String
deriving DecidableEq

/-- STATIC_DIR from main.py: `os.path.join(BASE_DIR, "static")` where BASE_DIR
is the directory containing the source file. -/
def STATIC_DIR (BASE_DIR : FsPath) : FsPath := BASE_DIR ++ ["static"]

/-- The path of the index file the home handler opens:
`os.path.join(STATIC_DIR, "index.html")`. -/
def indexPath (BASE_DIR : FsPath) : FsPath := STATIC_DIR BASE_DIR ++ ["index.html"]

/-- The framework's plain 404 response. -/
def notFoundResp : Response := ⟨404, asciiBytes "Not Found", "text/plain"⟩

/-- The framework's response to an unhandled exception in a handler. -/
def serverErrorResp : Response :=
  ⟨500, asciiBytes "Internal Server Error", "text/plain"⟩

/-- Split a character list at every occurrence of a separator; a list with n
separators yields n+1 groups, so the result is never empty. -/
def splitChars (sep : Char) : List Char → List (List Char)
  | [] => [[]]
  | c :: rest =>
    if c = sep then [] :: splitChars sep rest
    else
      match splitChars sep rest with
      | [] => [[c]]
      | g :: gs => (c :: g) :: gs

/-- Split a string at every occurrence of a separator character. -/
def splitOnChar (sep : Char) (s : String) : List String :=
  (splitChars sep s.toList).map (fun cs => ⟨cs⟩)

/-- Last dot-separated component of a file name. -/
def extOf (name : String) : String := ⟨(splitChars '.' name.toList).getLastD []⟩

/-- Modelled from the spec: the static mount serves each file "with a content
type inferred from the file extension". The inference table itself (Python's
mimetypes) is not part of this repository. -/
def contentTypeFor (name : String) : String :=
  match extOf name with
  | "html" => "text/html"
  | "css" => "text/css"
  | "js" => "text/javascript"
  | "json" => "application/json"
  | "png" => "image/png"
  | "jpg" => "image/jpeg"
  | "gif" => "image/gif"
  | "svg" => "image/svg+xml"
  | "txt" => "text/plain"
  | _ => "application/octet-stream"

/-- Modelled from the spec: resolution of the URL remainder under the static
mount, which "must be rejected with 403 or 404, never resolved outside the
directory boundary". A `..` segment pops one resolved segment, `.` and empty
segments are dropped, and a `..` that would climb above the mount root fails
resolution, so a resolved path never escapes the directory. The accumulator
holds the resolved segments in reverse. -/
def resolveAux : List String → List String → Option (List String)
  | acc, [] => some acc.reverse
  | acc, s :: rest =>
    if s == ".." then
      match acc with
      | [] => none
      | _ :: acc2 => resolveAux acc2 rest
    else if s == "." || s == "" then resolveAux acc rest
    else resolveAux (s :: acc) rest

/-- Resolve a static-mount remainder, starting from the mount root. -/
def resolveSegs (segs : List String) : Option (List String) := resolveAux [] segs

/-- A segment that neither climbs nor is dropped by resolution. -/
def isNormalSeg (s : String) : Bool := !(s == "..") && !(s == ".") && !(s == "")

/-- Modelled from the spec (the class is Starlette's, not part of this
repository): the StaticFiles application mounted at /static. It resolves the
remainder, rejects escapes, serves an existing file's bytes with status 200 and
inferred content type, and answers 404 otherwise. -/
def staticFilesApp (BASE_DIR : FsPath) (fs : FS) (segs : List String) : Response :=
  match resolveSegs segs with
  | none => notFoundResp
  | some rel =>
    match fs.read (STATIC_DIR BASE_DIR ++ rel) with
    | some bs => ⟨200, bs, contentTypeFor (rel.getLastD "")⟩
    | none => notFoundResp

/-- The home handler from main.py: on GET /, open STATIC_DIR/index.html in text
mode — strict UTF-8 decoding followed by universal-newline translation — and
return the text through HTMLResponse (content type text/html); an exception
(missing file or invalid UTF-8) surfaces as the framework's 500 response. The
body holds the wire (UTF-8) encoding of the returned text. -/
def home (BASE_DIR : FsPath) (fs : FS) : Response :=
  match fs.read (indexPath BASE_DIR) with
  | none => serverErrorResp
  | some bs =>
    match utf8Decode bs with
    | none => serverErrorResp
    | some cps => ⟨200, utf8Encode (universalNewlines cps), "text/html"⟩

/-- The health handler from main.py: the dict rendered as compact JSON with
status 200. -/
def health : Response :=
  ⟨200, asciiBytes "\x7b\"status\":\"ok\"\x7d", "application/json"⟩

/-- The constructed application; it only carries the directory the source
computed from its own location. -/
structure App where
  baseDir : FsPath
deriving DecidableEq

/-- Modelled from the spec: the static directory is a hard filesystem
dependency ("a directory named for static assets located alongside the server's
entry point"), and mounting StaticFiles fails at construction when it is
absent, so an application only exists when the directory does. -/
def mkApp (BASE_DIR : FsPath) (fs : FS) : Option App :=
  if fs.isDir (STATIC_DIR BASE_DIR) then some ⟨BASE_DIR⟩ else none

/-- The remainder of a URL path under the /static mount point, when the path
lies under it. -/
def staticRemainder (path : String) : Option (List String) :=
  match splitOnChar '/' path with
  | "" :: "static" :: rest => some rest
  | _ => none

/-- Request dispatch of the FastAPI router: GET / to home, GET /health to
health, paths under the /static mount to the static files application, any
other path to the framework 404. A request is identified by its URL path; all
three routes answer GET only. -/
def serve (a : App) (fs : FS) (path : String) : Response :=
  if path = "/" then home a.baseDir fs
  else if path = "/health" then health
  else
    match staticRemainder path with
    | some rest => staticFilesApp a.baseDir fs rest
    | none => notFoundResp

/-- A sequence of requests handled in order, threading the filesystem state
from one request to the next; the source's handlers perform no writes, so each
request hands the state on unchanged. -/
def handleRequests (a : App) : FS → List String → List Response
  | _, [] => []
  | fs, p :: ps => serve a fs p :: handleRequests a fs ps

theorem utf8Encode_cons (c : Nat) (cs : List Nat) :
    utf8Encode (c :: cs) = utf8EncodeChar c ++ utf8Encode cs := by
  simp [utf8Encode]

theorem contByte_bounds (c : Nat) (h : contByte c = true) : 128 ≤ c ∧ c ≤ 191 := by
  simpa [contByte] using h

theorem cont2ok_bounds (b c : Nat) (h : cont2ok b c = true) :
    (b = 224 ∧ 160 ≤ c ∧ c ≤ 191) ∨ (b = 237 ∧ 128 ≤ c ∧ c ≤ 159) ∨
    (b ≠ 224 ∧ b ≠ 237 ∧ 128 ≤ c ∧ c ≤ 191) := by
  unfold cont2ok at h
  by_cases e0 : b = 224
  · subst e0
    simp at h
    exact Or.inl ⟨rfl, h⟩
  · by_cases e1 : b = 237
    · subst e1
      simp at h
      exact Or.inr (Or.inl ⟨rfl, h⟩)
    · simp [e0, e1, contByte] at h
      exact Or.inr (Or.inr ⟨e0, e1, h⟩)

theorem cont3ok_bounds (b c : Nat) (h : cont3ok b c = true) :
    (b = 240 ∧ 144 ≤ c ∧ c ≤ 191) ∨ (b = 244 ∧ 128 ≤ c ∧ c ≤ 143) ∨
    (b ≠ 240 ∧ b ≠ 244 ∧ 128 ≤ c ∧ c ≤ 191) := by
  unfold cont3ok at h
  by_cases e0 : b = 240
  · subst e0
    simp at h
    exact Or.inl ⟨rfl, h⟩
  · by_cases e1 : b = 244
    · subst e1
      simp at h
      exact Or.inr (Or.inl ⟨rfl, h⟩)
    · simp [e0, e1, contByte] at h
      exact Or.inr (Or.inr ⟨e0, e1, h⟩)

theorem encChar1 (b : Nat) (hb : b ≤ 127) : utf8EncodeChar b = [b] := by
  unfold utf8EncodeChar
  rw [if_pos (by omega)]

theorem encChar2 (b c : Nat) (hb : 194 ≤ b) (hb2 : b ≤ 223)
    (hc : 128 ≤ c) (hc2 : c ≤ 191) :
    utf8EncodeChar ((b - 192) * 64 + (c - 128)) = [b, c] := by
  unfold utf8EncodeChar
  rw [if_neg (by omega), if_pos (by omega)]
  simp only [List.cons.injEq, and_true]
  exact ⟨by omega, by omega⟩

theorem encChar3 (b c d : Nat) (hbc : cont2ok b c = true)
    (hb : 224 ≤ b) (hb2 : b ≤ 239) (hd : 128 ≤ d) (hd2 : d ≤ 191) :
    utf8EncodeChar ((b - 224) * 4096 + (c - 128) * 64 + (d - 128)) = [b, c, d] := by
  unfold utf8EncodeChar
  rcases cont2ok_bounds b c hbc with ⟨e0, hc, hc2⟩ | ⟨e0, hc, hc2⟩ | ⟨e0, e1, hc, hc2⟩ <;>
  · rw [if_neg (by omega), if_neg (by omega), if_pos (by omega)]
    simp only [List.cons.injEq, and_true]
    exact ⟨by omega, by omega, by omega⟩

theorem encChar4 (b c d e : Nat) (hbc : cont3ok b c = true)
    (hb : 240 ≤ b) (hb2 : b ≤ 244) (hd : 128 ≤ d) (hd2 : d ≤ 191)
    (he : 128 ≤ e) (he2 : e ≤ 191) :
    utf8EncodeChar ((b - 240) * 262144 + (c - 128) * 4096 + (d - 128) * 64 + (e - 128))
      = [b, c, d, e] := by
  unfold utf8EncodeChar
  rcases cont3ok_bounds b c hbc with ⟨e0, hc, hc2⟩ | ⟨e0, hc, hc2⟩ | ⟨e0, e1, hc, hc2⟩ <;>
  · rw [if_neg (by omega), if_neg (by omega), if_neg (by omega)]
    simp only [List.cons.injEq, and_true]
    exact ⟨by omega, by omega, by omega, by omega⟩

theorem utf8Step_encode (bs : List Nat) (cp : Nat) (rest : List Nat)
    (h : utf8Step bs = some (cp, rest)) : utf8EncodeChar cp ++ rest = bs := by
  rcases bs with _ | ⟨b, r0⟩
  · simp [utf8Step] at h
  · simp only [utf8Step] at h
    split at h
    case isTrue h1 =>
      simp only [Option.some.injEq, Prod.mk.injEq] at h
      obtain ⟨rfl, rfl⟩ := h
      simp [encChar1 b h1]
    case isFalse h1 =>
      split at h
      case isTrue h2 =>
        simp only [Bool.and_eq_true, decide_eq_true_eq] at h2
        split at h
        case h_1 c r2 =>
          split at h
          case isTrue hc =>
            simp only [Option.some.injEq, Prod.mk.injEq] at h
            obtain ⟨rfl, rfl⟩ := h
            rcases contByte_bounds c hc with ⟨hcl, hcu⟩
            simp [encChar2 b c h2.1 h2.2 hcl hcu]
          case isFalse hc => exact absurd h (by simp)
        case h_2 => exact absurd h (by simp)
      case isFalse h2 =>
        split at h
        case isTrue h3 =>
          simp only [Bool.and_eq_true, decide_eq_true_eq] at h3
          split at h
          case h_1 c d r3 =>
            split at h
            case isTrue hcd =>
              simp only [Option.some.injEq, Prod.mk.injEq] at h
              obtain ⟨rfl, rfl⟩ := h
              simp only [Bool.and_eq_true] at hcd
              rcases contByte_bounds d hcd.2 with ⟨hdl, hdu⟩
              simp [encChar3 b c d hcd.1 h3.1 h3.2 hdl hdu]
            case isFalse hcd => exact absurd h (by simp)
          case h_2 => exact absurd h (by simp)
        case isFalse h3 =>
          split at h
          case isTrue h4 =>
            simp only [Bool.and_eq_true, decide_eq_true_eq] at h4
            split at h
            case h_1 c d e r4 =>
              split at h
              case isTrue hcde =>
                simp only [Option.some.injEq, Prod.mk.injEq] at h
                obtain ⟨rfl, rfl⟩ := h
                simp only [Bool.and_eq_true] at hcde
                rcases contByte_bounds d hcde.1.2 with ⟨hdl, hdu⟩
                rcases contByte_bounds e hcde.2 with ⟨hel, heu⟩
                simp [encChar4 b c d e hcde.1.1 h4.1 h4.2 hdl hdu hel heu]
              case isFalse hcde => exact absurd h (by simp)
            case h_2 => exact absurd h (by simp)
          case isFalse h4 => exact absurd h (by simp)

theorem utf8DecodeF_encode (fuel : Nat) :
    ∀ bs cps, utf8DecodeF fuel bs = some cps → utf8Encode cps = bs := by
  induction fuel with
  | zero =>
    intro bs cps h
    rcases bs with _ | ⟨b, rest⟩
    · simp only [utf8DecodeF, Option.some.injEq] at h
      simp [← h, utf8Encode]
    · simp [utf8DecodeF] at h
  | succ n ih =>
    intro bs cps h
    rcases bs with _ | ⟨b, rest⟩
    · simp only [utf8DecodeF, Option.some.injEq] at h
      simp [← h, utf8Encode]
    · simp only [utf8DecodeF] at h
      rcases hs : utf8Step (b :: rest) with _ | ⟨cp, r⟩
      · rw [hs] at h
        exact absurd h (by simp)
      · rw [hs] at h
        simp only [Option.map_eq_some'] at h
        rcases h with ⟨cps2, hdec, rfl⟩
        rw [utf8Encode_cons, ih r cps2 hdec]
        exact utf8Step_encode (b :: rest) cp r hs

theorem utf8Encode_decode (bs cps : List Nat) (h : utf8Decode bs = some cps) :
    utf8Encode cps = bs :=
  utf8DecodeF_encode bs.length bs cps h

theorem universalNewlines_no_cr (cps : List Nat) (h : 13 ∉ cps) :
    universalNewlines cps = cps := by
  induction cps with
  | nil => rfl
  | cons c rest ih =>
    have hc : c ≠ 13 := fun e => h (by simp [e])
    have hrest : 13 ∉ rest := fun m => h (List.mem_cons_of_mem _ m)
    rcases rest with _ | ⟨d, rest2⟩
    · simp [universalNewlines, hc]
    · simp only [universalNewlines]
      rw [if_neg hc, ih hrest]

theorem resolveAux_normal (segs : List String) :
    ∀ acc : List String, segs.all isNormalSeg = true →
      resolveAux acc segs = some (acc.reverse ++ segs) := by
  induction segs with
  | nil =>
    intro acc _
    simp [resolveAux]
  | cons s rest ih =>
    intro acc hall
    simp only [List.all_cons, Bool.and_eq_true] at hall
    have hs := hall.1
    simp only [isNormalSeg, Bool.and_eq_true, Bool.not_eq_true'] at hs
    simp only [resolveAux]
    rw [if_neg (by simp [hs.1.1]), if_neg (by simp [hs.1.2, hs.2])]
    rw [ih (s :: acc) hall.2]
    simp

theorem resolveSegs_normal (segs : List String) (h : segs.all isNormalSeg = true) :
    resolveSegs segs = some segs := by
  simpa [resolveSegs] using resolveAux_normal segs [] h

/-- C1: a GET under the static mount whose remainder resolves outside the
static directory gets the fixed Not Found response: status 404 (within the
spec's 403-or-404 allowance), never 200, and the response is the same whatever
the filesystem holds, so no file content from outside the directory can appear
in the body. -/
theorem static_traversal_rejected (BASE_DIR : FsPath) (fs : FS)
    (segs : List String) (h : resolveSegs segs = none) :
    staticFilesApp BASE_DIR fs segs = notFoundResp ∧
    ((staticFilesApp BASE_DIR fs segs).status = 403 ∨
      (staticFilesApp BASE_DIR fs segs).status = 404) ∧
    (staticFilesApp BASE_DIR fs segs).status ≠ 200 ∧
    (∀ fs2 : FS, staticFilesApp BASE_DIR fs2 segs = notFoundResp) := by
  have he : ∀ g : FS, staticFilesApp BASE_DIR g segs = notFoundResp := by
    intro g
    simp [staticFilesApp, h]
  refine ⟨he fs, ?_, ?_, he⟩
  · rw [he fs]
    exact Or.inr rfl
  · rw [he fs]
    decide

theorem static_traversal_rejected_witness :
    resolveSegs ["..", "main.py"] = none ∧
    staticFilesApp ["app"] ⟨[], []⟩ ["..", "main.py"] = notFoundResp :=
  ⟨by decide,
    (static_traversal_rejected ["app"] ⟨[], []⟩ ["..", "main.py"] (by decide)).1⟩

/-- C2: GET / is served from the index file read at request time: the response
is determined by the current contents of that one file, a successful read
yields 200 text/html whose body is the UTF-8 encoding of the file's text
content — its decoded bytes after universal-newline translation, which is the
file's exact bytes whenever the text has no carriage return — for both of two
snapshots, so a change between requests is reflected, and any two filesystems
agreeing on the index file get identical responses. -/
theorem home_reads_index_fresh (BASE_DIR : FsPath) (fs fs2 : FS)
    (bs bs2 cps cps2 : List Nat)
    (h1 : fs.read (indexPath BASE_DIR) = some bs) (h2 : utf8Decode bs = some cps)
    (h3 : fs2.read (indexPath BASE_DIR) = some bs2)
    (h4 : utf8Decode bs2 = some cps2) :
    home BASE_DIR fs = ⟨200, utf8Encode (universalNewlines cps), "text/html"⟩ ∧
    home BASE_DIR fs2
      = ⟨200, utf8Encode (universalNewlines cps2), "text/html"⟩ ∧
    (13 ∉ cps → home BASE_DIR fs = ⟨200, bs, "text/html"⟩) ∧
    (13 ∉ cps2 → home BASE_DIR fs2 = ⟨200, bs2, "text/html"⟩) ∧
    (∀ g g2 : FS, g.read (indexPath BASE_DIR) = g2.read (indexPath BASE_DIR) →
      home BASE_DIR g = home BASE_DIR g2) := by
  refine ⟨?_, ?_, ?_, ?_, ?_⟩
  · simp [home, h1, h2]
  · simp [home, h3, h4]
  · intro hcr
    simp [home, h1, h2, universalNewlines_no_cr cps hcr,
      utf8Encode_decode bs cps h2]
  · intro hcr
    simp [home, h3, h4, universalNewlines_no_cr cps2 hcr,
      utf8Encode_decode bs2 cps2 h4]
  · intro g g2 hg
    simp only [home, hg]

theorem home_reads_index_fresh_witness :
    FS.read ⟨[(["app", "static", "index.html"], [65])], [["app", "static"]]⟩
        (indexPath ["app"]) = some [65] ∧
    FS.read ⟨[(["app", "static", "index.html"], [66])], [["app", "static"]]⟩
        (indexPath ["app"]) = some [66] ∧
    home ["app"] ⟨[(["app", "static", "index.html"], [65])], [["app", "static"]]⟩
      = ⟨200, [65], "text/html"⟩ ∧
    home ["app"] ⟨[(["app", "static", "index.html"], [66])], [["app", "static"]]⟩
      = ⟨200, [66], "text/html"⟩ := by
  have h := home_reads_index_fresh ["app"]
    ⟨[(["app", "static", "index.html"], [65])], [["app", "static"]]⟩
    ⟨[(["app", "static", "index.html"], [66])], [["app", "static"]]⟩
    [65] [66] [65] [66] (by decide) (by decide) (by decide) (by decide)
  exact ⟨by decide, by decide, h.2.2.1 (by decide), h.2.2.2.1 (by decide)⟩

/-- C3: GET /health is answered by the fixed response: status 200 with body
exactly the JSON object with the single pair status, ok, for every application
and every filesystem state. -/
theorem health_always_ok (a : App) (fs : FS) :
    serve a fs "/health" = health ∧ health.status = 200 ∧
    health.body = asciiBytes "\x7b\"status\":\"ok\"\x7d" ∧
    health.contentType = "application/json" := by
  refine ⟨?_, rfl, rfl, rfl⟩
  simp [serve]

/-- C4: GET / answers 200 exactly when the request-time text read of the index
file succeeds; when it fails (missing file or undecodable bytes) the response
is the framework's 500 server error, with no fallback content. -/
theorem home_500_iff_read_fails (BASE_DIR : FsPath) (fs : FS) :
    ((home BASE_DIR fs).status = 200 ↔
      (readText fs (indexPath BASE_DIR)).isSome = true) ∧
    (readText fs (indexPath BASE_DIR) = none →
      home BASE_DIR fs = serverErrorResp) ∧
    serverErrorResp.status = 500 := by
  rcases hr : fs.read (indexPath BASE_DIR) with _ | bs
  · have hh : home BASE_DIR fs = serverErrorResp := by simp [home, hr]
    have ht : readText fs (indexPath BASE_DIR) = none := by simp [readText, hr]
    refine ⟨?_, fun _ => hh, rfl⟩
    rw [hh, ht]
    simp [serverErrorResp]
  · rcases hd : utf8Decode bs with _ | cps
    · have hh : home BASE_DIR fs = serverErrorResp := by simp [home, hr, hd]
      have ht : readText fs (indexPath BASE_DIR) = none := by
        simp [readText, hr, hd]
      refine ⟨?_, fun _ => hh, rfl⟩
      rw [hh, ht]
      simp [serverErrorResp]
    · have hh : home BASE_DIR fs
          = ⟨200, utf8Encode (universalNewlines cps), "text/html"⟩ := by
        simp [home, hr, hd]
      have ht : readText fs (indexPath BASE_DIR)
          = some (universalNewlines cps) := by
        simp [readText, hr, hd]
      refine ⟨?_, ?_, rfl⟩
      · rw [hh, ht]
        simp
      · intro hn
        rw [ht] at hn
        exact absurd hn (by simp)

theorem home_500_iff_read_fails_witness :
    readText ⟨[], []⟩ (indexPath ["app"]) = none ∧
    home ["app"] ⟨[], []⟩ = serverErrorResp :=
  ⟨by decide, (home_500_iff_read_fails ["app"] ⟨[], []⟩).2.1 (by decide)⟩

/-- C5: a file that exists at a valid relative path (nonempty, no traversal,
no empty or dot segments) under the static directory is served with status
200, a body byte-identical to its contents on disk, and the content type
inferred from its extension. -/
theorem static_serves_existing_file (BASE_DIR : FsPath) (fs : FS)
    (segs : List String) (bs : Bytes)
    (hn : segs.all isNormalSeg = true) (hne : segs ≠ [])
    (hr : fs.read (STATIC_DIR BASE_DIR ++ segs) = some bs) :
    staticFilesApp BASE_DIR fs segs =
      ⟨200, bs, contentTypeFor (segs.getLastD "")⟩ := by
  simp [staticFilesApp, resolveSegs_normal segs hn, hr]

theorem static_serves_existing_file_witness :
    FS.read ⟨[(["app", "static", "logo.png"], [1, 2, 3])], []⟩
        (STATIC_DIR ["app"] ++ ["logo.png"]) = some [1, 2, 3] ∧
    staticFilesApp ["app"] ⟨[(["app", "static", "logo.png"], [1, 2, 3])], []⟩
        ["logo.png"] = ⟨200, [1, 2, 3], "image/png"⟩ := by
  have h := static_serves_existing_file ["app"]
    ⟨[(["app", "static", "logo.png"], [1, 2, 3])], []⟩ ["logo.png"] [1, 2, 3]
    (by decide) (by decide) (by decide)
  exact ⟨by decide, by rw [h]; decide⟩

/-- C6: a request under the static mount that resolves inside the directory
but names a file that does not exist is answered with the 404 Not Found
response. -/
theorem static_missing_file_404 (BASE_DIR : FsPath) (fs : FS)
    (segs rel : List String)
    (h1 : resolveSegs segs = some rel)
    (h2 : fs.read (STATIC_DIR BASE_DIR ++ rel) = none) :
    staticFilesApp BASE_DIR fs segs = notFoundResp ∧
    (staticFilesApp BASE_DIR fs segs).status = 404 := by
  have hh : staticFilesApp BASE_DIR fs segs = notFoundResp := by
    simp [staticFilesApp, h1, h2]
  exact ⟨hh, by rw [hh]; rfl⟩

theorem static_missing_file_404_witness :
    resolveSegs ["missing.txt"] = some ["missing.txt"] ∧
    FS.read ⟨[], []⟩ (STATIC_DIR ["app"] ++ ["missing.txt"]) = none ∧
    staticFilesApp ["app"] ⟨[], []⟩ ["missing.txt"] = notFoundResp :=
  ⟨by decide, by decide,
    (static_missing_file_404 ["app"] ⟨[], []⟩ ["missing.txt"] ["missing.txt"]
      (by decide) (by decide)).1⟩

/-- C7: every handler is a deterministic function of the request path and the
readable filesystem contents: filesystems with identical file reads give
identical responses on every path; handling a sequence of requests answers
each from the same unchanged state, since no handler writes anything; and the
health route does not depend on the filesystem at all. -/
theorem handlers_stateless (a : App) (fs fs2 : FS) (p : String)
    (ps : List String) (hagree : ∀ q : FsPath, fs.read q = fs2.read q) :
    serve a fs p = serve a fs2 p ∧
    handleRequests a fs ps = ps.map (serve a fs) ∧
    (∀ g g2 : FS, serve a g "/health" = serve a g2 "/health") := by
  refine ⟨?_, ?_, ?_⟩
  · unfold serve
    by_cases h1 : p = "/"
    · rw [if_pos h1, if_pos h1]
      simp only [home, hagree (indexPath a.baseDir)]
    · rw [if_neg h1, if_neg h1]
      by_cases h2 : p = "/health"
      · rw [if_pos h2, if_pos h2]
      · rw [if_neg h2, if_neg h2]
        rcases hsr : staticRemainder p with _ | rest
        · rfl
        · show staticFilesApp a.baseDir fs rest
              = staticFilesApp a.baseDir fs2 rest
          rcases hres : resolveSegs rest with _ | rel
          · simp [staticFilesApp, hres]
          · simp [staticFilesApp, hres,
              hagree (STATIC_DIR a.baseDir ++ rel)]
  · induction ps with
    | nil => rfl
    | cons q qs ih => simp [handleRequests, List.map_cons, ih]
  · intro g g2
    simp [serve]

theorem handlers_stateless_witness :
    serve ⟨["app"]⟩ ⟨[], []⟩ "/" = serve ⟨["app"]⟩ ⟨[], []⟩ "/" ∧
    handleRequests ⟨["app"]⟩ ⟨[], []⟩ ["/health", "/"]
      = ["/health", "/"].map (serve ⟨["app"]⟩ ⟨[], []⟩) ∧
    (∀ g g2 : FS, serve ⟨["app"]⟩ g "/health" = serve ⟨["app"]⟩ g2 "/health") :=
  handlers_stateless ⟨["app"]⟩ ⟨[], []⟩ ⟨[], []⟩ "/" ["/health", "/"]
    (fun _ => rfl)

/-- C8 counterexample: for an index file with CRLF content the two routes do
not return the same bytes — GET / serves the newline-translated text while
GET /static/index.html serves the raw file — so the bodies differ even though
GET / succeeds. -/
theorem root_static_bodies_differ_on_crlf :
    (serve ⟨["app"]⟩ ⟨[(["app", "static", "index.html"], [72, 13, 10])], []⟩
      "/").status = 200 ∧
    (serve ⟨["app"]⟩ ⟨[(["app", "static", "index.html"], [72, 13, 10])], []⟩
      "/").body ≠
    (serve ⟨["app"]⟩ ⟨[(["app", "static", "index.html"], [72, 13, 10])], []⟩
      "/static/index.html").body := by
  decide

/-- C8 (amended): both routes serve the same underlying file, the file at
STATIC_DIR/index.html: whenever GET / succeeds, GET /static/index.html answers
200 with that file's raw bytes, while the GET / body is the UTF-8 encoding of
the file's newline-translated decoded text; the two bodies coincide whenever
that text contains no carriage return. -/
theorem root_and_static_index_same_file (a : App) (fs : FS)
    (h : (serve a fs "/").status = 200) :
    ∃ bs cps : List Nat, fs.read (indexPath a.baseDir) = some bs ∧
      utf8Decode bs = some cps ∧
      (serve a fs "/").body = utf8Encode (universalNewlines cps) ∧
      serve a fs "/static/index.html" = ⟨200, bs, "text/html"⟩ ∧
      (13 ∉ cps → (serve a fs "/").body = bs) := by
  have hroot : serve a fs "/" = home a.baseDir fs := by
    unfold serve
    rw [if_pos rfl]
  rw [hroot] at h ⊢
  have hst : serve a fs "/static/index.html"
      = staticFilesApp a.baseDir fs ["index.html"] := by
    unfold serve
    rw [if_neg (by decide), if_neg (by decide),
      show staticRemainder "/static/index.html" = some ["index.html"] from
        by decide]
  rcases hr : fs.read (indexPath a.baseDir) with _ | bs
  · simp [home, hr, serverErrorResp] at h
  · rcases hd : utf8Decode bs with _ | cps
    · simp [home, hr, hd, serverErrorResp] at h
    · refine ⟨bs, cps, rfl, hd, ?_, ?_, ?_⟩
      · simp [home, hr, hd]
      · rw [hst]
        have hres : resolveSegs ["index.html"] = some ["index.html"] := by
          decide
        have hread : fs.read (STATIC_DIR a.baseDir ++ ["index.html"])
            = some bs := hr
        simp [staticFilesApp, hres, hread]
        decide
      · intro hcr
        simp [home, hr, hd, universalNewlines_no_cr cps hcr,
          utf8Encode_decode bs cps hd]

theorem root_and_static_index_same_file_witness :
    (serve ⟨["app"]⟩ ⟨[(["app", "static", "index.html"], [72, 105])], []⟩
      "/").status = 200 ∧
    (∃ bs cps : List Nat,
      FS.read ⟨[(["app", "static", "index.html"], [72, 105])], []⟩
          (indexPath ["app"]) = some bs ∧
      utf8Decode bs = some cps ∧
      (serve ⟨["app"]⟩ ⟨[(["app", "static", "index.html"], [72, 105])], []⟩
          "/").body = utf8Encode (universalNewlines cps) ∧
      serve ⟨["app"]⟩ ⟨[(["app", "static", "index.html"], [72, 105])], []⟩
          "/static/index.html" = ⟨200, bs, "text/html"⟩ ∧
      (13 ∉ cps →
        (serve ⟨["app"]⟩ ⟨[(["app", "static", "index.html"], [72, 105])], []⟩
          "/").body = bs)) :=
  ⟨by decide,
    root_and_static_index_same_file ⟨["app"]⟩
      ⟨[(["app", "static", "index.html"], [72, 105])], []⟩ (by decide)⟩

/-- C9 counterexample: a valid-UTF-8 CRLF index file decodes to itself and
re-encodes to itself, yet GET / does not return (the encoding of) that
decoding: text mode also translates newlines, so the body is the translated
LF form, not the raw bytes. -/
theorem home_body_not_raw_decode_on_crlf :
    utf8Decode [13, 10] = some [13, 10] ∧
    utf8Encode [13, 10] = [13, 10] ∧
    home ["app"] ⟨[(["app", "static", "index.html"], [13, 10])], []⟩
      ≠ ⟨200, utf8Encode [13, 10], "text/html"⟩ ∧
    home ["app"] ⟨[(["app", "static", "index.html"], [13, 10])], []⟩
      = ⟨200, [10], "text/html"⟩ := by
  decide

/-- C9 (amended): the home handler reads the index file in text mode — strict
UTF-8 decoding followed by universal-newline translation: a file whose bytes
are not valid UTF-8 makes GET / fail with the 500 server error exactly like an
unreadable file, and on success the body is the wire encoding of the
newline-translated UTF-8 decoding of the file's bytes. -/
theorem home_utf8_text_mode (BASE_DIR : FsPath) (fs : FS) (bs : Bytes)
    (h : fs.read (indexPath BASE_DIR) = some bs) :
    (utf8Decode bs = none → home BASE_DIR fs = serverErrorResp) ∧
    (∀ cps : List Nat, utf8Decode bs = some cps →
      home BASE_DIR fs
        = ⟨200, utf8Encode (universalNewlines cps), "text/html"⟩) := by
  constructor
  · intro hd
    simp [home, h, hd]
  · intro cps hd
    simp [home, h, hd]

theorem home_utf8_text_mode_witness :
    FS.read ⟨[(["app", "static", "index.html"], [255])], []⟩
        (indexPath ["app"]) = some [255] ∧
    utf8Decode [255] = none ∧
    home ["app"] ⟨[(["app", "static", "index.html"], [255])], []⟩
      = serverErrorResp :=
  ⟨by decide, by decide,
    (home_utf8_text_mode ["app"]
      ⟨[(["app", "static", "index.html"], [255])], []⟩ [255] (by decide)).1
      (by decide)⟩

/-- C10: the static directory is the static subdirectory of the directory
holding the server source, and constructing the application checks it exists:
construction yields nothing when the directory is absent (so no request can
ever be served then), and a constructed application implies the directory
existed and records that base directory. -/
theorem static_dir_checked_at_startup (BASE_DIR : FsPath) (fs : FS) :
    STATIC_DIR BASE_DIR = BASE_DIR ++ ["static"] ∧
    (fs.isDir (STATIC_DIR BASE_DIR) = false → mkApp BASE_DIR fs = none) ∧
    (∀ a : App, mkApp BASE_DIR fs = some a →
      fs.isDir (STATIC_DIR BASE_DIR) = true ∧ a.baseDir = BASE_DIR) := by
  refine ⟨rfl, ?_, ?_⟩
  · intro hd
    simp [mkApp, hd]
  · intro a ha
    unfold mkApp at ha
    split at ha
    case isTrue hdir =>
      cases ha
      exact ⟨hdir, rfl⟩
    case isFalse hdir => exact absurd ha (by simp)

theorem static_dir_checked_at_startup_witness :
    FS.isDir ⟨[], []⟩ (STATIC_DIR ["app"]) = false ∧
    mkApp ["app"] ⟨[], []⟩ = none :=
  ⟨by decide, (static_dir_checked_at_startup ["app"] ⟨[], []⟩).2.1 (by decide)⟩
